import Mathlib

/-!
Verification of the schedule repository (order allocation and lifecycle tracking).

This file gives a shallow embedding of the scheduling code:
  - src/config.py                      (classification thresholds, working-time constants)
  - src/models/initial_scheduling.py   (capacity calculator, three-phase allocation engine)
  - src/services/schedule_service.py   (order lifecycle tracker and schedule mutators)
  - src/pages/schedule_page.py         (priority-change handler with global re-sort)

Times (minutes) are modelled as rationals, timestamps as rational minutes since an
arbitrary epoch, pandas data frames as Lean lists of structures, and fallible code
paths as Option results.  A pandas row mask followed by index[0] addresses the first
row whose ScheduleRowID matches, which the embedding mirrors by structural recursion
over the list.
-/

/-- Model of the Python str.lower method: lowercase every character. -/
def pyLower (s : String) : String := ⟨s.data.map Char.toLower⟩

/-- Model of the Python str.strip method: drop whitespace at both ends. -/
def pyStrip (s : String) : String :=
  ⟨((s.data.dropWhile Char.isWhitespace).reverse.dropWhile Char.isWhitespace).reverse⟩

namespace Config

/-- Classification thresholds from src/config.py (CLASS_THRESHOLDS).  Each item is
(lower bound, upper bound, label, class code); the unbounded last bucket models
the Python value float inf as `none`. -/
def CLASS_THRESHOLDS : List (ℚ × Option ℚ × String × Int) :=
  [(0, some 160, "Low", 1),
   (160, some 320, "Medium", 2),
   (320, some 480, "High", 3),
   (480, none, "Very High", 4)]

/-- STANDARD_WORKDAY_MINUTES from src/config.py. -/
def STANDARD_WORKDAY_MINUTES : ℚ := 480

/-- LUNCH_BREAK_MINUTES from src/config.py. -/
def LUNCH_BREAK_MINUTES : ℚ := 30

end Config

/-- Test whether routing time t lands in the bucket (lo, hi): lo ≤ t and, when the
bucket is bounded, t < hi. -/
def inBucket (t lo : ℚ) (hi : Option ℚ) : Bool :=
  decide (lo ≤ t) && (match hi with | none => true | some h => decide (t < h))

/-- Modelled from the spec: the classification function classify_order lives in
models/orders.py, which is absent from src/ (app.py only imports it).  Per spec
section 4.1 it returns (label, code) using the ordered half-open buckets of
Config.CLASS_THRESHOLDS, scanning them in order and returning the first bucket
that contains t. -/
def classify_order (t : ℚ) : Option (String × Int) :=
  Config.CLASS_THRESHOLDS.findSome? fun b =>
    if inBucket t b.1 b.2.1 then some (b.2.2.1, b.2.2.2) else none

/-- One row of the technician shift table consumed by calculate_working_time
(columns Matricule, Working, To another, Break, Extra Time).  Missing Break and
Extra Time cells are `none` (pandas NaN). -/
structure ShiftRecord where
  matricule : String
  working : String
  toAnother : String
  breakMin : Option ℚ
  extraMin : Option ℚ
deriving DecidableEq

/-- One row of the technician roster csv (columns Matricule, Expertise Class). -/
structure RosterTech where
  matricule : String
  expertiseClass : Int
deriving DecidableEq

/-- One output row of calculate_working_time: the retained shift row with Break and
Extra Time filled with 0, the computed Working Time, and the left-merged expertise
class (none when the matricule is missing from the roster). -/
structure WorkingTech where
  matricule : String
  breakMin : ℚ
  extraMin : ℚ
  workingTime : ℚ
  expertiseClass : Option Int
deriving DecidableEq

/-- Model of calculate_working_time (src/models/initial_scheduling.py lines 50-60):
normalize the Working and To another flags with strip and lower, keep rows where
Working is yes and To another is no, fill missing Break and Extra Time with 0,
compute Working Time as 480 + 30 - Break + Extra Time, and left-merge the roster
expertise by matricule (first roster match, mirroring a merge on a unique key). -/
def calculate_working_time (technicians : List RosterTech) (shifts : List ShiftRecord) :
    List WorkingTech :=
  (shifts.filter fun r =>
      pyLower (pyStrip r.working) = "yes" && pyLower (pyStrip r.toAnother) = "no").map
    fun r =>
      { matricule := r.matricule
        breakMin := r.breakMin.getD 0
        extraMin := r.extraMin.getD 0
        workingTime := 480 + 30 - r.breakMin.getD 0 + r.extraMin.getD 0
        expertiseClass :=
          (technicians.find? fun t => t.matricule = r.matricule).map (·.expertiseClass) }

/-- One work session of a schedule entry: a start timestamp and an optional stop
timestamp, the parsed form of one member of the WorkSessions JSON array. -/
structure Session where
  start : ℚ
  stop : Option ℚ
deriving DecidableEq

/-- One row of the editable schedule data frame handled by ScheduleService and the
schedule page.  workSessions models the serialized WorkSessions cell: `none` is a
missing or empty-string cell (pandas NaN or ""), `some l` is a JSON array. -/
structure Entry where
  scheduleRowID : String
  sap : String
  orderID : String
  materialDescription : String
  routingTime : ℚ
  technicianMatricule : String
  technicianName : String
  status : String
  remark : String
  priority : Option String
  classCode : Int
  sequenceNumber : Nat
  firstStartTime : Option ℚ
  endTime : Option ℚ
  totalTimeSpent : ℚ
  remainingRoutingTime : ℚ
  workSessions : Option (List Session)
deriving DecidableEq

/-- Model of ScheduleService._calculate_total_session_time: sum, over the sessions
whose stop is non-null, of (stop - start) in minutes. -/
def total_session_time (ws : List Session) : ℚ :=
  (ws.filterMap fun s => s.stop.map fun st => st - s.start).sum

/-- Model of the session-closing lines of update_order_status: if the session list
is nonempty and the last session has a null stop, set its stop to now. -/
def closeLastOpen (ws : List Session) (now : ℚ) : List Session :=
  match ws.getLast? with
  | none => ws
  | some s => if s.stop = none then ws.dropLast ++ [{ s with stop := some now }] else ws

/-- Model of the per-row body of ScheduleService.update_order_status (lines 51-120):
normalize a missing or empty WorkSessions cell to the empty array (this happens
before any status validation), then dispatch on the action.  The numeric suffix of
the success messages (a formatted total) is elided; failure messages are verbatim. -/
def apply_status_action (e : Entry) (action : String) (now : ℚ) :
    Entry × Bool × String :=
  let ws := e.workSessions.getD []
  let e0 : Entry := { e with workSessions := some ws }
  if action = "start" then
    if ¬ (e.status = "Planned" ∨ e.status = "Partially Completed") then
      (e0, false, "Cannot start order with status: " ++ e.status)
    else
      ({ e0 with
          status := "In Progress"
          firstStartTime := some (e.firstStartTime.getD now)
          workSessions := some (ws ++ [{ start := now, stop := none }]) },
       true, "Order started")
  else if action = "stop" then
    if ¬ (e.status = "In Progress") then
      (e0, false, "Can only stop orders that are in progress")
    else
      let ws1 := closeLastOpen ws now
      let total := total_session_time ws1
      ({ e0 with
          status := "Partially Completed"
          totalTimeSpent := total
          remainingRoutingTime := max 0 (e.routingTime - total)
          workSessions := some ws1 },
       true, "Order paused")
  else if action = "end" then
    if ¬ (e.status = "In Progress" ∨ e.status = "Partially Completed") then
      (e0, false, "Cannot complete order with status: " ++ e.status)
    else
      let ws1 := closeLastOpen ws now
      let total := total_session_time ws1
      ({ e0 with
          status := "Completed"
          endTime := some now
          totalTimeSpent := total
          remainingRoutingTime := 0
          workSessions := some ws1 },
       true, "Order completed")
  else
    (e0, false, "Unknown action: " ++ action)

/-- Shared traversal of the ScheduleService mutators: every one of them builds a
row mask on ScheduleRowID, fails with Order not found when no row matches, and
otherwise rewrites the first matching row (index[0]) through its per-row body,
leaving every other row untouched. -/
def overFirst (body : Entry → Entry × Bool × String) :
    List Entry → String → List Entry × Bool × String
  | [], _ => ([], false, "Order not found")
  | e :: rest, rowId =>
    if e.scheduleRowID = rowId then
      let r := body e
      (r.1 :: rest, r.2.1, r.2.2)
    else
      let r := overFirst body rest rowId
      (e :: r.1, r.2.1, r.2.2)

/-- Model of ScheduleService.update_order_status (lines 39-120). -/
def update_order_status (df : List Entry) (rowId action : String) (now : ℚ) :
    List Entry × Bool × String :=
  overFirst (fun e => apply_status_action e action now) df rowId

/-- Per-row body of ScheduleService.change_technician (lines 135-163): only rows
with status Planned may be reassigned, the new expertise must reach the class
code of the order, and on success only the technician name and matricule fields
change.  Failure messages are paraphrased without changing their information
content. -/
def change_technician_row (e : Entry) (newName newMat : String) (newExp : Int) :
    Entry × Bool × String :=
  if ¬ (e.status = "Planned") then
    (e, false, "Can only reassign orders that have not started yet")
  else if newExp < e.classCode then
    (e, false, "Technician expertise insufficient for order")
  else
    ({ e with technicianName := newName, technicianMatricule := newMat },
     true, "Order reassigned to " ++ newName)

/-- Model of ScheduleService.change_technician. -/
def change_technician (df : List Entry) (rowId newName newMat : String)
    (newExp : Int) : List Entry × Bool × String :=
  overFirst (fun e => change_technician_row e newName newMat newExp) df rowId

/-- The remark written by mark_as_blocked. -/
def blockedRemark (reason : String) (timeSpent : ℚ) : String :=
  "Blocked: " ++ reason ++ ". Time spent: " ++ toString timeSpent ++ " min"

/-- Per-row body of ScheduleService.mark_as_blocked (lines 244-264):
unconditionally set status to Blocked, overwrite the remark with the reason and
the caller-supplied minutes, and set RemainingRoutingTime to
max 0 (routing time - time spent).  No current status is checked. -/
def mark_blocked_row (e : Entry) (reason : String) (timeSpent : ℚ) :
    Entry × Bool × String :=
  ({ e with
      status := "Blocked"
      remark := blockedRemark reason timeSpent
      remainingRoutingTime := max 0 (e.routingTime - timeSpent) },
   true, "Order marked as blocked: " ++ reason)

/-- Model of ScheduleService.mark_as_blocked: only an unknown id fails. -/
def mark_as_blocked (df : List Entry) (rowId reason : String) (timeSpent : ℚ) :
    List Entry × Bool × String :=
  overFirst (fun e => mark_blocked_row e reason timeSpent) df rowId

/-- Spec-side frame description for failing lifecycle calls: the schedule with the
first matching row having its missing or empty work-session cell normalized to the
empty array, and nothing else changed. -/
def normalizeFirst : List Entry → String → List Entry
  | [], _ => []
  | e :: rest, rowId =>
    if e.scheduleRowID = rowId then
      { e with workSessions := some (e.workSessions.getD []) } :: rest
    else
      e :: normalizeFirst rest rowId

/-- Plain ascending lexicographic order on pairs of rationals.  Sort keys below
negate a component where the source sorts it descending, so every sort in the
model is ascending on its key, exactly as the Python tuple comparisons are. -/
def lex2Le (a b : ℚ × ℚ) : Prop :=
  a.1 < b.1 ∨ (a.1 = b.1 ∧ a.2 ≤ b.2)

instance (a b : ℚ × ℚ) : Decidable (lex2Le a b) := by unfold lex2Le; infer_instance

/-- Plain ascending lexicographic order on triples of rationals. -/
def lex3Le (a b : ℚ × ℚ × ℚ) : Prop :=
  a.1 < b.1 ∨ (a.1 = b.1 ∧ (a.2.1 < b.2.1 ∨ (a.2.1 = b.2.1 ∧ a.2.2 ≤ b.2.2)))

instance (a b : ℚ × ℚ × ℚ) : Decidable (lex3Le a b) := by unfold lex3Le; infer_instance

/-- The temporary priority ordinal of the schedule-page re-sort (schedule_page.py
line 387): Urgent and the string 0 map to 0, A to 1, B to 2, C to 3, and every
other value, a null priority included, to 999 (the fillna default). -/
def tempPriorityOrd (p : Option String) : ℚ :=
  match p with
  | some "Urgent" => 0
  | some "0" => 0
  | some "A" => 1
  | some "B" => 2
  | some "C" => 3
  | _ => 999

/-- Sort key of the schedule-page re-sort: priority ordinal ascending, routing
time descending (hence negated). -/
def pageKey (e : Entry) : ℚ × ℚ := (tempPriorityOrd e.priority, -e.routingTime)

/-- Row order produced by the schedule-page re-sort. -/
def pageRel (a b : Entry) : Prop := lex2Le (pageKey a) (pageKey b)

instance : DecidableRel pageRel := fun a b => by unfold pageRel; infer_instance

instance : IsTotal Entry pageRel :=
  ⟨fun a b => by
    unfold pageRel lex2Le
    rcases lt_trichotomy (pageKey a).1 (pageKey b).1 with h | h | h
    · exact Or.inl (Or.inl h)
    · rcases le_total (pageKey a).2 (pageKey b).2 with h2 | h2
      · exact Or.inl (Or.inr ⟨h, h2⟩)
      · exact Or.inr (Or.inr ⟨h.symm, h2⟩)
    · exact Or.inr (Or.inl h)⟩

instance : IsTrans Entry pageRel :=
  ⟨fun a b c hab hbc => by
    unfold pageRel lex2Le at hab hbc ⊢
    rcases hab with h | ⟨h1, h2⟩ <;> rcases hbc with g | ⟨g1, g2⟩
    · exact Or.inl (h.trans g)
    · exact Or.inl (lt_of_lt_of_eq h g1)
    · exact Or.inl (lt_of_eq_of_lt h1 g)
    · exact Or.inr ⟨h1.trans g1, le_trans h2 g2⟩⟩

/-- Erase the sequence number of a row, for statements that compare schedules up
to the renumbering. -/
def stripSeq (e : Entry) : Entry := { e with sequenceNumber := 0 }

/-- Model of the priority-field update of the schedule-page handler (lines
372-384): Urgent or the string 0 store the value Urgent, the string None stores a
null priority, anything else is stored as given; when the new priority is urgent
and a technician was chosen, the technician matricule and name are overwritten. -/
def apply_priority_fields (e : Entry) (newPriority : String)
    (selectedTech : Option (String × String)) : Entry :=
  let npv : Option String :=
    if newPriority = "Urgent" ∨ newPriority = "0" then some "Urgent"
    else if newPriority = "None" then none
    else some newPriority
  let e1 : Entry := { e with priority := npv }
  match selectedTech with
  | some t =>
    if newPriority = "Urgent" ∨ newPriority = "0" then
      { e1 with technicianMatricule := t.1, technicianName := t.2 }
    else e1
  | none => e1

/-- Replace the first row whose ScheduleRowID matches by its image under f. -/
def updateFirst : List Entry → String → (Entry → Entry) → List Entry
  | [], _, _ => []
  | e :: rest, rowId, f =>
    if e.scheduleRowID = rowId then f e :: rest else e :: updateFirst rest rowId f

/-- Reassign every sequence number to 1..N in list order (schedule_page.py line
393). -/
def resequence (l : List Entry) : List Entry :=
  l.enum.map fun p => { p.2 with sequenceNumber := p.1 + 1 }

/-- Model of the priority-update button handler of
schedule_page._render_priority_modification (lines 353-394): fail (none) when the
addressed row is missing or its status is not Planned; otherwise update the
priority (and, for an urgent priority, the chosen technician), re-sort the whole
schedule by (priority ordinal ascending, routing time descending) and renumber
every sequence number 1..N.  The pandas sort is realized by a stable insertion
sort, a sound choice since no claim depends on the order of key ties. -/
def render_priority_update (df : List Entry) (selectedOrderID newPriority : String)
    (selectedTech : Option (String × String)) : Option (List Entry) :=
  match df.find? fun e => e.scheduleRowID = selectedOrderID with
  | none => none
  | some e =>
    if ¬ (e.status = "Planned") then none
    else
      let df1 := updateFirst df selectedOrderID
        fun r => apply_priority_fields r newPriority selectedTech
      some (resequence (List.insertionSort pageRel df1))

/-- One technician row consumed by create_initial_schedule: the output of the
capacity calculator joined with the roster (columns Matricule, Technician Name,
Expertise Class, Working Time). -/
structure Technician where
  matricule : String
  name : String
  expertiseClass : Int
  workingTime : ℚ
deriving DecidableEq

/-- One classified order row consumed by create_initial_schedule (columns SAP,
Order ID, Material Description, routing time, Priority, Class Code); a missing
priority cell is none (pandas NaN). -/
structure OrderRow where
  sap : String
  orderID : String
  materialDescription : String
  routingTime : ℚ
  priority : Option String
  classCode : Int
deriving DecidableEq

/-- The normalized Priority string of an order (initial_scheduling.py line 81):
fillna with the string None, then strip. -/
def prioNorm (o : OrderRow) : String := pyStrip (o.priority.getD "None")

/-- Priority_Num (lines 70-83): the engine priority mapping with 999 for every
unmapped value. -/
def priorityNum (o : OrderRow) : ℚ :=
  match prioNorm o with
  | "Urgent" => 0
  | "urgent" => 0
  | "0" => 0
  | "A" => 1
  | "a" => 1
  | "B" => 2
  | "b" => 2
  | "C" => 3
  | "c" => 3
  | _ => 999

/-- Sort key of the engine order sort (lines 86-89): Priority_Num ascending,
routing time descending (hence negated). -/
def orderKey (o : OrderRow) : ℚ × ℚ := (priorityNum o, -o.routingTime)

/-- Row order of the engine order sort. -/
def orderRel (a b : OrderRow) : Prop := lex2Le (orderKey a) (orderKey b)

instance : DecidableRel orderRel := fun a b => by unfold orderRel; infer_instance

/-- One schedule row produced by the allocation engine (the dictionary appended at
lines 143-161, 215-233 and 274-292).  The four timestamp fields are always None
at creation time. -/
structure SchedEntry where
  dayDate : String
  sap : String
  orderID : String
  materialDescription : String
  routingTime : ℚ
  technicianMatricule : String
  technicianName : String
  status : String
  remainingTime : ℚ
  remark : String
  priority : Option String
  classCode : Int
  startTime : Option ℚ
  stopTime : Option ℚ
  endTime : Option ℚ
  realSpentTime : Option ℚ
  remainingRoutingTime : ℚ
deriving DecidableEq

/-- First technician row with the given matricule (the Python dicts are keyed by
matricule; with distinct matricules first-match lookup coincides with them). -/
def techLookup (techs : List Technician) (m : String) : Option Technician :=
  techs.find? fun t => t.matricule = m

/-- technician_expertise.get(mat, 0). -/
def expertiseOf (techs : List Technician) (m : String) : Int :=
  ((techLookup techs m).map (·.expertiseClass)).getD 0

/-- technician_names.get(mat, Unknown). -/
def nameOf (techs : List Technician) (m : String) : String :=
  ((techLookup techs m).map (·.name)).getD "Unknown"

/-- Working state of an allocation run: the schedule built so far, the
remaining-minutes and cumulative-assigned-minutes counters keyed by matricule,
the consumed sorted-order indices, and the technicians seeded in phase 1. -/
structure AllocSt where
  sched : List SchedEntry
  remaining : String → ℚ
  assignedT : String → ℚ
  consumed : List Nat
  p1techs : List String

/-- Initial allocation state (lines 106-112): remaining minutes start at each
technician Working Time, assigned minutes at 0, nothing consumed. -/
def initSt (techs : List Technician) : AllocSt :=
  { sched := []
    remaining := fun m => ((techLookup techs m).map (·.workingTime)).getD 0
    assignedT := fun _ => 0
    consumed := []
    p1techs := [] }

/-- The schedule dictionary appended on every assignment: status Planned, both
remaining-time fields equal to the routing time, and a null Priority when the
normalized priority is the string None. -/
def mkSchedEntry (date : String) (o : OrderRow) (m techName entryRemark : String) :
    SchedEntry :=
  { dayDate := date
    sap := o.sap
    orderID := o.orderID
    materialDescription := o.materialDescription
    routingTime := o.routingTime
    technicianMatricule := m
    technicianName := techName
    status := "Planned"
    remainingTime := o.routingTime
    remark := entryRemark
    priority := if prioNorm o = "None" then none else some (prioNorm o)
    classCode := o.classCode
    startTime := none
    stopTime := none
    endTime := none
    realSpentTime := none
    remainingRoutingTime := o.routingTime }

/-- Effect of assigning sorted order (i, o) to the technician with matricule m:
append the schedule row, decrement the remaining minutes and increment the
assigned minutes of m by the routing time, and consume index i. -/
def assignTo (s : AllocSt) (date : String) (techs : List Technician) (o : OrderRow)
    (i : Nat) (m entryRemark : String) : AllocSt :=
  { s with
    sched := s.sched ++ [mkSchedEntry date o m (nameOf techs m) entryRemark]
    remaining := fun m2 => if m2 = m then s.remaining m - o.routingTime else s.remaining m2
    assignedT := fun m2 => if m2 = m then s.assignedT m + o.routingTime else s.assignedT m2
    consumed := i :: s.consumed }

/-- Phase 1, round-robin seeding (lines 114-171): walk the sorted orders; stop
once every technician was seeded; otherwise give the order to the first
technician, in input order, that was not seeded yet, has expertise at least the
class code and has remaining minutes at least the routing time.  The source also
skips orders already consumed, which in this phase can never happen. -/
def phase1 (techs : List Technician) (date : String) :
    List (Nat × OrderRow) → AllocSt → AllocSt
  | [], s => s
  | (i, o) :: rest, s =>
    if s.p1techs.length ≥ techs.length then s
    else
      match (techs.map (·.matricule)).find? (fun m =>
          decide (m ∉ s.p1techs) && decide (o.classCode ≤ expertiseOf techs m) &&
          decide (o.routingTime ≤ s.remaining m)) with
      | none => phase1 techs date rest s
      | some m =>
        phase1 techs date rest
          { assignTo s date techs o i m "" with p1techs := m :: s.p1techs }

/-- Phase 2 candidate sort key (lines 206-210): cumulative assigned minutes
ascending, exact expertise match preferred (the Python negated boolean, -1 for a
match and 0 otherwise), remaining minutes descending (hence negated). -/
def phase2key (s : AllocSt) (techs : List Technician) (o : OrderRow) (m : String) :
    ℚ × ℚ × ℚ :=
  (s.assignedT m, if expertiseOf techs m = o.classCode then -1 else 0, -(s.remaining m))

/-- Phase 2, balanced priority fill (lines 173-243): for each remaining sorted
order, collect every technician with expertise at least the class code and
remaining minutes at least the routing time, sort the candidates by phase2key and
assign to the first; orders with no candidate are skipped. -/
def phase2 (techs : List Technician) (date : String) :
    List (Nat × OrderRow) → AllocSt → AllocSt
  | [], s => s
  | (i, o) :: rest, s =>
    let cands := (techs.map (·.matricule)).filter fun m =>
      decide (o.classCode ≤ expertiseOf techs m) && decide (o.routingTime ≤ s.remaining m)
    match (List.insertionSort
        (fun m1 m2 => lex3Le (phase2key s techs o m1) (phase2key s techs o m2))
        cands).head? with
    | none => phase2 techs date rest s
    | some m => phase2 techs date rest (assignTo s date techs o i m "")

/-- Phase 3 candidate sort key (line 271): assigned minutes ascending, remaining
minutes descending. -/
def phase3key (s : AllocSt) (m : String) : ℚ × ℚ := (s.assignedT m, -(s.remaining m))

/-- Phase 3, capacity fill with expertise waived (lines 245-302): for each still
remaining sorted order, collect every technician with remaining minutes at least
the routing time, sort by phase3key, assign to the first and tag the row with the
capacity-fill remark. -/
def phase3 (techs : List Technician) (date : String) :
    List (Nat × OrderRow) → AllocSt → AllocSt
  | [], s => s
  | (i, o) :: rest, s =>
    let cands := (techs.map (·.matricule)).filter fun m =>
      decide (o.routingTime ≤ s.remaining m)
    match (List.insertionSort
        (fun m1 m2 => lex2Le (phase3key s m1) (phase3key s m2)) cands).head? with
    | none => phase3 techs date rest s
    | some m =>
      phase3 techs date rest
        (assignTo s date techs o i m "Capacity fill - may not match expertise")

/-- The sorted, position-indexed order list the engine iterates over (the sorted
frame after reset_index). -/
def sortedIndexed (orders : List OrderRow) : List (Nat × OrderRow) :=
  (List.insertionSort orderRel orders).enum

/-- The sorted orders whose index was not consumed yet. -/
def remainingOrders (indexed : List (Nat × OrderRow)) (s : AllocSt) :
    List (Nat × OrderRow) :=
  indexed.filter fun p => decide (p.1 ∉ s.consumed)

/-- The allocation state after all three phases of create_initial_schedule. -/
def allocFinal (techs : List Technician) (orders : List OrderRow) (date : String) :
    AllocSt :=
  let indexed := sortedIndexed orders
  let s1 := phase1 techs date indexed (initSt techs)
  let s2 := phase2 techs date (remainingOrders indexed s1) s1
  phase3 techs date (remainingOrders indexed s2) s2

/-- Model of create_initial_schedule (initial_scheduling.py lines 61-343): sort
the orders by (Priority_Num ascending, routing time descending), run the three
assignment phases, and return the schedule together with the unconsumed orders.
The summary block at line 313 divides by the number of orders, so a run on an
empty orders table raises ZeroDivisionError; the model returns none there. -/
def create_initial_schedule (techs : List Technician) (orders : List OrderRow)
    (date : String) : Option (List SchedEntry × List OrderRow) :=
  if orders.isEmpty then none
  else
    let s := allocFinal techs orders date
    some (s.sched, (remainingOrders (sortedIndexed orders) s).map (·.2))

/-- Total routing minutes of the schedule rows assigned to matricule m. -/
def sumRouting (sched : List SchedEntry) (m : String) : ℚ :=
  ((sched.filter fun e => e.technicianMatricule = m).map (·.routingTime)).sum

/-- Capacity invariant of an allocation run: for every technician the assigned
routing minutes plus the remaining counter equal the initial working time, and
the remaining counter never goes negative. -/
def AllocInv (techs : List Technician) (s : AllocSt) : Prop :=
  ∀ t ∈ techs,
    sumRouting s.sched t.matricule + s.remaining t.matricule = t.workingTime ∧
    0 ≤ s.remaining t.matricule

/-- A representative Planned schedule row used as the base of the concrete
witness inputs below. -/
def baseEntry : Entry :=
  { scheduleRowID := "r1", sap := "S100", orderID := "O100",
    materialDescription := "demo", routingTime := 100,
    technicianMatricule := "M1", technicianName := "Alice", status := "Planned",
    remark := "", priority := some "C", classCode := 2, sequenceNumber := 1,
    firstStartTime := none, endTime := none, totalTimeSpent := 0,
    remainingRoutingTime := 100, workSessions := some [] }

/-- A Planned row whose serialized work-session cell is missing (pandas NaN or
the empty string). -/
def entC6 : Entry := { baseEntry with scheduleRowID := "r6", workSessions := none }

/-- A row with routing time 50, blocked below with a larger time spent. -/
def entC9 : Entry := { baseEntry with scheduleRowID := "r9", routingTime := 50 }

/-- A Completed row, blocked below although its work is already finished. -/
def entC10 : Entry := { baseEntry with scheduleRowID := "r10", status := "Completed" }

/-- An In Progress row with one open work session. -/
def entC5 : Entry :=
  { baseEntry with
    scheduleRowID := "r5"
    status := "In Progress"
    workSessions := some [{ start := 10, stop := none }] }

/-- Priority C row of the re-sort scenario. -/
def rowC : Entry := { baseEntry with scheduleRowID := "rc", priority := some "C", routingTime := 10 }

/-- Priority A row of the re-sort scenario. -/
def rowA : Entry := { baseEntry with scheduleRowID := "ra", priority := some "A", routingTime := 20, sequenceNumber := 2 }

/-- Priority B row of the re-sort scenario. -/
def rowB : Entry := { baseEntry with scheduleRowID := "rb", priority := some "B", routingTime := 30, sequenceNumber := 3 }

/-- The lone technician of the end-to-end engine scenario of spec section 8. -/
def techM1 : Technician :=
  { matricule := "M1", name := "Alice", expertiseClass := 4, workingTime := 480 }

/-- Order B of the engine scenario: 500 minutes, priority B. -/
def ordB : OrderRow :=
  { sap := "SB", orderID := "OB", materialDescription := "d", routingTime := 500,
    priority := some "B", classCode := 4 }

/-- Order A of the engine scenario: 100 minutes, priority A. -/
def ordA : OrderRow :=
  { sap := "SA", orderID := "OA", materialDescription := "d", routingTime := 100,
    priority := some "A", classCode := 1 }

/-- Order C of the engine scenario: 50 minutes, priority C. -/
def ordC : OrderRow :=
  { sap := "SC", orderID := "OC", materialDescription := "d", routingTime := 50,
    priority := some "C", classCode := 1 }

/-- A roster row for the capacity-calculator witness. -/
def rosterT1 : RosterTech := { matricule := "M1", expertiseClass := 3 }

/-- A working, not transferred shift row with a 20 minute break. -/
def shiftYes : ShiftRecord :=
  { matricule := "M1", working := " Yes ", toAnother := "no", breakMin := some 20,
    extraMin := none }

/-- A non-working shift row. -/
def shiftNo : ShiftRecord :=
  { matricule := "M2", working := "no", toAnother := "no", breakMin := none,
    extraMin := none }

/-- Claim C3: classification is a total deterministic function on the half-open
buckets of Config.CLASS_THRESHOLDS: every t in [0,160) maps to (Low,1), every t
in [160,320) to (Medium,2), every t in [320,480) to (High,3) and every t at least
480 to (Very High,4); in particular at 159, 160, 479 and 480. -/
theorem classification_buckets :
    (∀ t : ℚ,
      (0 ≤ t → t < 160 → classify_order t = some ("Low", 1)) ∧
      (160 ≤ t → t < 320 → classify_order t = some ("Medium", 2)) ∧
      (320 ≤ t → t < 480 → classify_order t = some ("High", 3)) ∧
      (480 ≤ t → classify_order t = some ("Very High", 4))) ∧
    classify_order 159 = some ("Low", 1) ∧
    classify_order 160 = some ("Medium", 2) ∧
    classify_order 479 = some ("High", 3) ∧
    classify_order 480 = some ("Very High", 4) := by
  refine ⟨fun t => ⟨?_, ?_, ?_, ?_⟩, by decide, by decide, by decide, by decide⟩
  · intro h1 h2
    simp [classify_order, Config.CLASS_THRESHOLDS, inBucket, h1, h2]
  · intro h1 h2
    have hn1 : ¬ t < 160 := by linarith
    simp [classify_order, Config.CLASS_THRESHOLDS, inBucket, hn1, h1, h2]
  · intro h1 h2
    have hn1 : ¬ t < 160 := by linarith
    have hn2 : ¬ t < 320 := by linarith
    simp [classify_order, Config.CLASS_THRESHOLDS, inBucket, hn1, hn2, h1, h2]
  · intro h1
    have hn1 : ¬ t < 160 := by linarith
    have hn2 : ¬ t < 320 := by linarith
    have hn3 : ¬ t < 480 := by linarith
    simp [classify_order, Config.CLASS_THRESHOLDS, inBucket, hn1, hn2, hn3, h1]

/-- Witness for C3: the bucket statements applied at 100, 200, 400 and 500. -/
theorem classification_buckets_witness :
    classify_order 100 = some ("Low", 1) ∧
    classify_order 200 = some ("Medium", 2) ∧
    classify_order 400 = some ("High", 3) ∧
    classify_order 500 = some ("Very High", 4) :=
  ⟨(classification_buckets.1 100).1 (by norm_num) (by norm_num),
   (classification_buckets.1 200).2.1 (by norm_num) (by norm_num),
   (classification_buckets.1 400).2.2.1 (by norm_num) (by norm_num),
   (classification_buckets.1 500).2.2.2 (by norm_num)⟩

/-- Claim C4: a technician is in the day pool exactly when the normalized Working
flag is yes and the normalized To another flag is no, and every pooled technician
gets STANDARD_WORKDAY_MINUTES + LUNCH_BREAK_MINUTES - break + extra available
minutes, with missing break and extra cells treated as 0. -/
theorem capacity_calculator_spec :
    ∀ (roster : List RosterTech) (shifts : List ShiftRecord),
      (shifts.map (·.matricule)).Nodup →
      ∀ r ∈ shifts,
        ((∃ w ∈ calculate_working_time roster shifts, w.matricule = r.matricule) ↔
          (pyLower (pyStrip r.working) = "yes" ∧ pyLower (pyStrip r.toAnother) = "no")) ∧
        (∀ w ∈ calculate_working_time roster shifts, w.matricule = r.matricule →
          w.workingTime = Config.STANDARD_WORKDAY_MINUTES + Config.LUNCH_BREAK_MINUTES
            - r.breakMin.getD 0 + r.extraMin.getD 0) := by
  intro roster shifts hnd r hr
  have hinj : ∀ x ∈ shifts, ∀ y ∈ shifts, x.matricule = y.matricule → x = y :=
    fun x hx y hy hxy => List.inj_on_of_nodup_map hnd hx hy hxy
  constructor
  · constructor
    · rintro ⟨w, hw, hwm⟩
      simp only [calculate_working_time, List.mem_map, List.mem_filter] at hw
      obtain ⟨r2, ⟨hr2, hp⟩, rfl⟩ := hw
      have hre : r2 = r := hinj r2 hr2 r hr hwm
      subst hre
      simpa using hp
    · rintro ⟨h1, h2⟩
      have hmem :
          ({ matricule := r.matricule,
             breakMin := r.breakMin.getD 0,
             extraMin := r.extraMin.getD 0,
             workingTime := 480 + 30 - r.breakMin.getD 0 + r.extraMin.getD 0,
             expertiseClass :=
               (roster.find? fun t => t.matricule = r.matricule).map
                 (·.expertiseClass) } : WorkingTech) ∈
            calculate_working_time roster shifts := by
        simp only [calculate_working_time, List.mem_map, List.mem_filter]
        exact ⟨r, ⟨hr, by simp [h1, h2]⟩, rfl⟩
      exact ⟨_, hmem, rfl⟩
  · intro w hw hwm
    simp only [calculate_working_time, List.mem_map, List.mem_filter] at hw
    obtain ⟨r2, ⟨hr2, _⟩, rfl⟩ := hw
    have hre : r2 = r := hinj r2 hr2 r hr hwm
    subst hre
    simp [Config.STANDARD_WORKDAY_MINUTES, Config.LUNCH_BREAK_MINUTES]

/-- Witness for C4: the pool membership and the 480 + 30 - 20 + 0 formula at a
concrete roster and shift table. -/
theorem capacity_calculator_witness :
    ((∃ w ∈ calculate_working_time [rosterT1] [shiftYes, shiftNo],
        w.matricule = shiftYes.matricule) ↔
      (pyLower (pyStrip shiftYes.working) = "yes" ∧
        pyLower (pyStrip shiftYes.toAnother) = "no")) ∧
    (∀ w ∈ calculate_working_time [rosterT1] [shiftYes, shiftNo],
      w.matricule = shiftYes.matricule →
      w.workingTime = Config.STANDARD_WORKDAY_MINUTES + Config.LUNCH_BREAK_MINUTES
        - shiftYes.breakMin.getD 0 + shiftYes.extraMin.getD 0) :=
  capacity_calculator_spec [rosterT1] [shiftYes, shiftNo] (by decide) shiftYes
    (by decide)

/-- The traversal rewrites exactly the first matching row. -/
theorem overFirst_append (body : Entry → Entry × Bool × String)
    (pre post : List Entry) (e : Entry) (rowId : String)
    (hpre : ∀ x ∈ pre, x.scheduleRowID ≠ rowId) (he : e.scheduleRowID = rowId) :
    overFirst body (pre ++ e :: post) rowId =
      (pre ++ (body e).1 :: post, (body e).2.1, (body e).2.2) := by
  induction pre with
  | nil => simp [overFirst, he]
  | cons a l ih =>
    have ha : a.scheduleRowID ≠ rowId := hpre a (by simp)
    simp [overFirst, ha, ih fun x hx => hpre x (by simp [hx])]

/-- When no row matches, the traversal fails and returns the input unchanged. -/
theorem overFirst_not_found (body : Entry → Entry × Bool × String)
    (df : List Entry) (rowId : String) (h : ∀ x ∈ df, x.scheduleRowID ≠ rowId) :
    overFirst body df rowId = (df, false, "Order not found") := by
  induction df with
  | nil => simp [overFirst]
  | cons a l ih =>
    have ha : a.scheduleRowID ≠ rowId := h a (by simp)
    simp [overFirst, ha, ih fun x hx => h x (by simp [hx])]

/-- A start on a Planned or Partially Completed row: status moves to In Progress,
the first-ever start is recorded, and a fresh open session is appended. -/
theorem apply_start_success (e : Entry) (now : ℚ)
    (h : e.status = "Planned" ∨ e.status = "Partially Completed") :
    apply_status_action e "start" now =
      ({ e with
          status := "In Progress"
          firstStartTime := some (e.firstStartTime.getD now)
          workSessions := some (e.workSessions.getD [] ++ [{ start := now, stop := none }]) },
       true, "Order started") := by
  rcases h with h | h <;> simp [apply_status_action, h]

/-- A start on any other status fails, after the work-session normalization. -/
theorem apply_start_fail (e : Entry) (now : ℚ)
    (h : ¬ (e.status = "Planned" ∨ e.status = "Partially Completed")) :
    apply_status_action e "start" now =
      ({ e with workSessions := some (e.workSessions.getD []) }, false,
       "Cannot start order with status: " ++ e.status) := by
  simp [apply_status_action, h]

/-- A stop on an In Progress row: status moves to Partially Completed, the open
session is closed and both time fields are recomputed. -/
theorem apply_stop_success (e : Entry) (now : ℚ) (h : e.status = "In Progress") :
    apply_status_action e "stop" now =
      ({ e with
          status := "Partially Completed"
          totalTimeSpent := total_session_time (closeLastOpen (e.workSessions.getD []) now)
          remainingRoutingTime :=
            max 0 (e.routingTime -
              total_session_time (closeLastOpen (e.workSessions.getD []) now))
          workSessions := some (closeLastOpen (e.workSessions.getD []) now) },
       true, "Order paused") := by
  simp [apply_status_action, h]

/-- A stop on any other status fails, after the work-session normalization. -/
theorem apply_stop_fail (e : Entry) (now : ℚ) (h : ¬ e.status = "In Progress") :
    apply_status_action e "stop" now =
      ({ e with workSessions := some (e.workSessions.getD []) }, false,
       "Can only stop orders that are in progress") := by
  simp [apply_status_action, h]

/-- An end on an In Progress or Partially Completed row completes it. -/
theorem apply_end_success (e : Entry) (now : ℚ)
    (h : e.status = "In Progress" ∨ e.status = "Partially Completed") :
    apply_status_action e "end" now =
      ({ e with
          status := "Completed"
          endTime := some now
          totalTimeSpent := total_session_time (closeLastOpen (e.workSessions.getD []) now)
          remainingRoutingTime := 0
          workSessions := some (closeLastOpen (e.workSessions.getD []) now) },
       true, "Order completed") := by
  rcases h with h | h <;> simp [apply_status_action, h]

/-- An end on any other status fails, after the work-session normalization. -/
theorem apply_end_fail (e : Entry) (now : ℚ)
    (h : ¬ (e.status = "In Progress" ∨ e.status = "Partially Completed")) :
    apply_status_action e "end" now =
      ({ e with workSessions := some (e.workSessions.getD []) }, false,
       "Cannot complete order with status: " ++ e.status) := by
  simp [apply_status_action, h]


/-- A successful start on a singleton schedule, fully characterized. -/
theorem update_start_single (e : Entry) (rowId : String) (T0 : ℚ)
    (hid : e.scheduleRowID = rowId)
    (h : e.status = "Planned" ∨ e.status = "Partially Completed") :
    update_order_status [e] rowId "start" T0 =
      ([{ e with
          status := "In Progress"
          firstStartTime := some (e.firstStartTime.getD T0)
          workSessions := some (e.workSessions.getD [] ++ [{ start := T0, stop := none }]) }],
       true, "Order started") := by
  rw [show ([e] : List Entry) = [] ++ e :: [] from rfl, update_order_status,
    overFirst_append _ [] [] e rowId (by simp) hid]
  simp only [apply_start_success e T0 h, List.nil_append]

/-- A successful stop on a singleton schedule, fully characterized. -/
theorem update_stop_single (e : Entry) (rowId : String) (now : ℚ)
    (hid : e.scheduleRowID = rowId) (h : e.status = "In Progress") :
    update_order_status [e] rowId "stop" now =
      ([{ e with
          status := "Partially Completed"
          totalTimeSpent := total_session_time (closeLastOpen (e.workSessions.getD []) now)
          remainingRoutingTime :=
            max 0 (e.routingTime -
              total_session_time (closeLastOpen (e.workSessions.getD []) now))
          workSessions := some (closeLastOpen (e.workSessions.getD []) now) }],
       true, "Order paused") := by
  rw [show ([e] : List Entry) = [] ++ e :: [] from rfl, update_order_status,
    overFirst_append _ [] [] e rowId (by simp) hid]
  simp only [apply_stop_success e now h, List.nil_append]

/-- Claim C5: the stop action succeeds exactly when the addressed row is In
Progress; on success the status becomes Partially Completed, the most recent open
session is closed at the current timestamp, TotalTimeSpent is recomputed as the
sum over closed sessions of (stop - start) and RemainingRoutingTime as
max 0 (routing - total); a start at T0 followed by a stop at T0 + 30 yields
TotalTimeSpent 30 and RemainingRoutingTime routing - 30. -/
theorem stop_action_spec :
    (∀ (pre post : List Entry) (e : Entry) (now : ℚ),
      (∀ x ∈ pre, x.scheduleRowID ≠ e.scheduleRowID) →
      ((update_order_status (pre ++ e :: post) e.scheduleRowID "stop" now).2.1 = true ↔
        e.status = "In Progress") ∧
      (e.status = "In Progress" →
        ∃ e2 ws2,
          update_order_status (pre ++ e :: post) e.scheduleRowID "stop" now =
            (pre ++ e2 :: post, true, "Order paused") ∧
          e2.status = "Partially Completed" ∧
          e2.workSessions = some ws2 ∧
          e2.totalTimeSpent = total_session_time ws2 ∧
          e2.remainingRoutingTime = max 0 (e.routingTime - e2.totalTimeSpent) ∧
          (∀ (l : List Session) (s0 : ℚ),
            e.workSessions = some (l ++ [{ start := s0, stop := none }]) →
            ws2 = l ++ [{ start := s0, stop := some now }]))) ∧
    (∀ (e : Entry) (T0 : ℚ),
      e.status = "Planned" → e.workSessions = some [] → 30 ≤ e.routingTime →
      ∃ e2,
        (update_order_status
            (update_order_status [e] e.scheduleRowID "start" T0).1
            e.scheduleRowID "stop" (T0 + 30)).1 = [e2] ∧
        e2.totalTimeSpent = 30 ∧
        e2.remainingRoutingTime = e.routingTime - 30) := by
  constructor
  · intro pre post e now hpre
    constructor
    · rw [update_order_status, overFirst_append _ pre post e e.scheduleRowID hpre rfl]
      by_cases h : e.status = "In Progress"
      · simp only [apply_stop_success e now h]
        simp [h]
      · simp only [apply_stop_fail e now h]
        simp [h]
    · intro h
      refine ⟨{ e with
          status := "Partially Completed"
          totalTimeSpent :=
            total_session_time (closeLastOpen (e.workSessions.getD []) now)
          remainingRoutingTime :=
            max 0 (e.routingTime -
              total_session_time (closeLastOpen (e.workSessions.getD []) now))
          workSessions := some (closeLastOpen (e.workSessions.getD []) now) },
        closeLastOpen (e.workSessions.getD []) now, ?_, rfl, rfl, rfl, rfl, ?_⟩
      · rw [update_order_status, overFirst_append _ pre post e e.scheduleRowID hpre rfl]
        simp only [apply_stop_success e now h]
      · intro l s0 hws
        rw [hws]
        simp [closeLastOpen, List.getLast?_concat, List.dropLast_concat]
  · intro e T0 hst hws hrt
    have h1 := update_start_single e e.scheduleRowID T0 rfl (Or.inl hst)
    rw [hws] at h1
    simp only [Option.getD_some, List.nil_append] at h1
    rw [h1]
    dsimp only
    have h2 := update_stop_single
      { e with
          status := "In Progress"
          firstStartTime := some (e.firstStartTime.getD T0)
          workSessions := some [{ start := T0, stop := none }] }
      e.scheduleRowID (T0 + 30) rfl rfl
    rw [h2]
    dsimp only
    have h30 : (0 : ℚ) ≤ e.routingTime - 30 := by linarith
    refine ⟨_, rfl, ?_, ?_⟩
    · simp [closeLastOpen, total_session_time]
    · simp [closeLastOpen, total_session_time, max_eq_right h30]

/-- Witness for C5: the success criterion on a concrete In Progress row and the
start/stop 30-minute round trip on a concrete Planned row. -/
theorem stop_action_witness :
    (((update_order_status [entC5] entC5.scheduleRowID "stop" 40).2.1 = true) ↔
      entC5.status = "In Progress") ∧
    (∃ e2,
      (update_order_status
          (update_order_status [baseEntry] baseEntry.scheduleRowID "start" 0).1
          baseEntry.scheduleRowID "stop" (0 + 30)).1 = [e2] ∧
      e2.totalTimeSpent = 30 ∧
      e2.remainingRoutingTime = baseEntry.routingTime - 30) :=
  ⟨(stop_action_spec.1 [] [] entC5 40 (by simp)).1,
   stop_action_spec.2 baseEntry 0 rfl rfl (by decide)⟩

/-- On a failing start, stop or end, the per-row body returns the row with only
its work-session cell normalized, and the stated failure message. -/
theorem apply_fail_frame (e : Entry) (action : String) (now : ℚ)
    (ha : action = "start" ∨ action = "stop" ∨ action = "end")
    (hf : (apply_status_action e action now).2.1 = false) :
    (apply_status_action e action now).1 =
      { e with workSessions := some (e.workSessions.getD []) } ∧
    (apply_status_action e action now).2.2 =
      (if action = "start" then "Cannot start order with status: " ++ e.status
       else if action = "stop" then "Can only stop orders that are in progress"
       else "Cannot complete order with status: " ++ e.status) := by
  rcases ha with rfl | rfl | rfl
  · by_cases h : e.status = "Planned" ∨ e.status = "Partially Completed"
    · rw [apply_start_success e now h] at hf
      simp at hf
    · rw [apply_start_fail e now h]
      simp
  · by_cases h : e.status = "In Progress"
    · rw [apply_stop_success e now h] at hf
      simp at hf
    · rw [apply_stop_fail e now h]
      simp
  · by_cases h : e.status = "In Progress" ∨ e.status = "Partially Completed"
    · rw [apply_end_success e now h] at hf
      simp at hf
    · rw [apply_end_fail e now h]
      simp

/-- Failing lifecycle calls return the schedule with at most the addressed row
work-session cell normalized. -/
theorem update_fail_frame_aux (rowId action : String) (now : ℚ)
    (ha : action = "start" ∨ action = "stop" ∨ action = "end") :
    ∀ df : List Entry, (update_order_status df rowId action now).2.1 = false →
      (update_order_status df rowId action now).1 = normalizeFirst df rowId := by
  intro df
  induction df with
  | nil => intro _; simp [update_order_status, overFirst, normalizeFirst]
  | cons a l ih =>
    intro hf
    by_cases hid : a.scheduleRowID = rowId
    · simp only [update_order_status, overFirst, hid, if_true] at hf ⊢
      have hff := apply_fail_frame a action now ha hf
      simp [normalizeFirst, hid, hff.1]
    · simp only [update_order_status, overFirst, hid, if_false] at hf ⊢
      simp only [update_order_status] at ih
      simp [normalizeFirst, hid, ih hf]

/-- Counterexample to claim C6: a failing stop on a Planned row whose serialized
work-session cell is missing does mutate the schedule: the cell is normalized to
the empty array before validation, so the returned row differs from the input
row; the failure message also omits the current status, naming only the action
and the required status. -/
theorem lifecycle_failure_counterexample :
    (update_order_status [entC6] "r6" "stop" 0).2.1 = false ∧
    (update_order_status [entC6] "r6" "stop" 0).2.2 =
      "Can only stop orders that are in progress" ∧
    (update_order_status [entC6] "r6" "stop" 0).1 ≠ [entC6] := by
  decide

/-- Amended claim C6: a failing start, stop or end returns a failure message and
leaves every field of every row unchanged, except that the addressed row has its
missing or empty work-session cell normalized to the empty array; an unknown row
id reports Order not found with no change at all, a failing start or end names
the action and the current status, and a failing stop names the action and the
required status only. -/
theorem lifecycle_failure_spec :
    ∀ (df : List Entry) (rowId action : String) (now : ℚ),
      action = "start" ∨ action = "stop" ∨ action = "end" →
      (update_order_status df rowId action now).2.1 = false →
      (update_order_status df rowId action now).1 = normalizeFirst df rowId ∧
      ((∀ x ∈ df, x.scheduleRowID ≠ rowId) →
        (update_order_status df rowId action now).1 = df ∧
        (update_order_status df rowId action now).2.2 = "Order not found") ∧
      (∀ (pre post : List Entry) (e : Entry),
        df = pre ++ e :: post → (∀ x ∈ pre, x.scheduleRowID ≠ rowId) →
        e.scheduleRowID = rowId →
        (update_order_status df rowId action now).2.2 =
          (if action = "start" then "Cannot start order with status: " ++ e.status
           else if action = "stop" then "Can only stop orders that are in progress"
           else "Cannot complete order with status: " ++ e.status)) := by
  intro df rowId action now ha hf
  refine ⟨update_fail_frame_aux rowId action now ha df hf, ?_, ?_⟩
  · intro hx
    rw [update_order_status, overFirst_not_found _ df rowId hx]
    exact ⟨rfl, rfl⟩
  · intro pre post e hdf hpre hid
    subst hdf
    rw [update_order_status, overFirst_append _ pre post e rowId hpre hid] at hf ⊢
    exact (apply_fail_frame e action now ha hf).2

/-- Witness for amended C6: the failing stop on the concrete row with a missing
work-session cell, with the frame and the message instantiated. -/
theorem lifecycle_failure_witness :
    (update_order_status [entC6] "r6" "stop" 5).1 = normalizeFirst [entC6] "r6" ∧
    (update_order_status [entC6] "r6" "stop" 5).2.2 =
      (if "stop" = "start" then "Cannot start order with status: " ++ entC6.status
       else if "stop" = "stop" then "Can only stop orders that are in progress"
       else "Cannot complete order with status: " ++ entC6.status) :=
  ⟨(lifecycle_failure_spec [entC6] "r6" "stop" 5 (Or.inr (Or.inl rfl)) (by decide)).1,
   (lifecycle_failure_spec [entC6] "r6" "stop" 5 (Or.inr (Or.inl rfl)) (by decide)).2.2
     [] [] entC6 rfl (by simp) rfl⟩

/-- Reassignment row body on a Planned row with sufficient expertise. -/
theorem change_row_success (e : Entry) (newName newMat : String) (newExp : Int)
    (h1 : e.status = "Planned") (h2 : e.classCode ≤ newExp) :
    change_technician_row e newName newMat newExp =
      ({ e with technicianName := newName, technicianMatricule := newMat },
       true, "Order reassigned to " ++ newName) := by
  simp [change_technician_row, h1, not_lt.mpr h2]

/-- Reassignment row body failure: wrong status or insufficient expertise. -/
theorem change_row_fail (e : Entry) (newName newMat : String) (newExp : Int)
    (h : ¬ (e.status = "Planned" ∧ e.classCode ≤ newExp)) :
    (change_technician_row e newName newMat newExp).1 = e ∧
    (change_technician_row e newName newMat newExp).2.1 = false := by
  by_cases h1 : e.status = "Planned"
  · have h2 : ¬ e.classCode ≤ newExp := fun hc => h ⟨h1, hc⟩
    simp [change_technician_row, h1, not_le.mp h2]
  · simp [change_technician_row, h1]

/-- Claim C8: the reassign-technician mutator succeeds exactly when the addressed
row is Planned and the new expertise reaches the class code of the order; on
success only the technician name and matricule fields of that row change, every
other field and row being untouched; on rejection nothing changes, and an unknown
row id fails with no change. -/
theorem change_technician_spec :
    (∀ (pre post : List Entry) (e : Entry) (newName newMat : String) (newExp : Int),
      (∀ x ∈ pre, x.scheduleRowID ≠ e.scheduleRowID) →
      ((change_technician (pre ++ e :: post) e.scheduleRowID newName newMat newExp).2.1
          = true ↔ (e.status = "Planned" ∧ e.classCode ≤ newExp)) ∧
      (e.status = "Planned" → e.classCode ≤ newExp →
        change_technician (pre ++ e :: post) e.scheduleRowID newName newMat newExp =
          (pre ++ { e with technicianName := newName, technicianMatricule := newMat }
              :: post,
           true, "Order reassigned to " ++ newName)) ∧
      (¬ (e.status = "Planned" ∧ e.classCode ≤ newExp) →
        (change_technician (pre ++ e :: post) e.scheduleRowID newName newMat newExp).1 =
          pre ++ e :: post)) ∧
    (∀ (df : List Entry) (rowId newName newMat : String) (newExp : Int),
      (∀ x ∈ df, x.scheduleRowID ≠ rowId) →
      change_technician df rowId newName newMat newExp = (df, false, "Order not found")) := by
  constructor
  · intro pre post e newName newMat newExp hpre
    rw [change_technician, overFirst_append _ pre post e e.scheduleRowID hpre rfl]
    refine ⟨?_, ?_, ?_⟩
    · by_cases h : e.status = "Planned" ∧ e.classCode ≤ newExp
      · simp only [change_row_success e newName newMat newExp h.1 h.2]
        simpa using h
      · have hr := change_row_fail e newName newMat newExp h
        simp only []
        rw [hr.2]
        simpa using h
    · intro h1 h2
      simp only [change_row_success e newName newMat newExp h1 h2]
    · intro h
      have hr := change_row_fail e newName newMat newExp h
      simp only []
      rw [hr.1]
  · intro df rowId newName newMat newExp hx
    rw [change_technician, overFirst_not_found _ df rowId hx]

/-- Witness for C8: reassignment of a concrete Planned row to a level 3
technician, and the success criterion at that input. -/
theorem change_technician_witness :
    ((change_technician [baseEntry] baseEntry.scheduleRowID "New" "M7" 3).2.1 = true ↔
      (baseEntry.status = "Planned" ∧ baseEntry.classCode ≤ 3)) ∧
    change_technician [baseEntry] baseEntry.scheduleRowID "New" "M7" 3 =
      ([{ baseEntry with technicianName := "New", technicianMatricule := "M7" }],
       true, "Order reassigned to New") :=
  ⟨(change_technician_spec.1 [] [] baseEntry "New" "M7" 3 (by simp)).1,
   (change_technician_spec.1 [] [] baseEntry "New" "M7" 3 (by simp)).2.1 rfl (by decide)⟩

/-- The mark-as-blocked traversal on the first matching row, for any status. -/
theorem mark_as_blocked_append (pre post : List Entry) (e : Entry)
    (reason : String) (t : ℚ) (hpre : ∀ x ∈ pre, x.scheduleRowID ≠ e.scheduleRowID) :
    mark_as_blocked (pre ++ e :: post) e.scheduleRowID reason t =
      (pre ++ { e with
          status := "Blocked"
          remark := blockedRemark reason t
          remainingRoutingTime := max 0 (e.routingTime - t) } :: post,
       true, "Order marked as blocked: " ++ reason) := by
  rw [mark_as_blocked, overFirst_append _ pre post e e.scheduleRowID hpre rfl]
  simp only [mark_blocked_row]

/-- Counterexample to claim C9: blocking a row with routing time 50 and a caller
time spent of 100 stores RemainingRoutingTime 0 (the clamped value), not
RoutingTime - time_spent = -50 as the claim states. -/
theorem mark_blocked_remaining_counterexample :
    ((mark_as_blocked [entC9] entC9.scheduleRowID "Serrage" 100).1.head?.map
        (·.remainingRoutingTime)) = some 0 ∧
    entC9.routingTime - 100 ≠ (0 : ℚ) := by
  have h := mark_as_blocked_append [] [] entC9 "Serrage" 100 (by simp)
  simp only [List.nil_append] at h
  constructor
  · rw [h]
    simp [max_def, entC9, baseEntry]
    norm_num
  · norm_num [entC9, baseEntry]

/-- Amended claim C9: the block action sets the status to Blocked, stores the
free-text reason and the caller-supplied minutes in the remark, and recomputes
the remaining time as max 0 (RoutingTime - time_spent) with the caller-supplied
time spent, not a value derived from the work sessions. -/
theorem mark_blocked_spec :
    ∀ (pre post : List Entry) (e : Entry) (reason : String) (t : ℚ),
      (∀ x ∈ pre, x.scheduleRowID ≠ e.scheduleRowID) →
      ∃ e2,
        (mark_as_blocked (pre ++ e :: post) e.scheduleRowID reason t).1 =
          pre ++ e2 :: post ∧
        (mark_as_blocked (pre ++ e :: post) e.scheduleRowID reason t).2.1 = true ∧
        e2.status = "Blocked" ∧
        e2.remark = blockedRemark reason t ∧
        e2.remainingRoutingTime = max 0 (e.routingTime - t) := by
  intro pre post e reason t hpre
  rw [mark_as_blocked_append pre post e reason t hpre]
  exact ⟨_, rfl, rfl, rfl, rfl, rfl⟩

/-- Witness for amended C9: blocking the routing-time-50 row with 100 minutes
spent stores the clamped remaining time 0. -/
theorem mark_blocked_spec_witness :
    ∃ e2,
      (mark_as_blocked [entC9] entC9.scheduleRowID "Serrage" 100).1 = [e2] ∧
      (mark_as_blocked [entC9] entC9.scheduleRowID "Serrage" 100).2.1 = true ∧
      e2.status = "Blocked" ∧
      e2.remark = blockedRemark "Serrage" 100 ∧
      e2.remainingRoutingTime = max 0 (entC9.routingTime - 100) :=
  mark_blocked_spec [] [] entC9 "Serrage" 100 (by simp)

/-- Claim C10: mark_as_blocked has no status precondition: for every existing row
and every current status it succeeds, overwrites the status to Blocked and
overwrites the remark; it fails, with no change, exactly when the row id is
unknown. -/
theorem mark_blocked_no_precondition :
    (∀ (pre post : List Entry) (e : Entry) (reason : String) (t : ℚ),
      (∀ x ∈ pre, x.scheduleRowID ≠ e.scheduleRowID) →
      mark_as_blocked (pre ++ e :: post) e.scheduleRowID reason t =
        (pre ++ { e with
            status := "Blocked"
            remark := blockedRemark reason t
            remainingRoutingTime := max 0 (e.routingTime - t) } :: post,
         true, "Order marked as blocked: " ++ reason)) ∧
    (∀ (df : List Entry) (rowId reason : String) (t : ℚ),
      (∀ x ∈ df, x.scheduleRowID ≠ rowId) →
      mark_as_blocked df rowId reason t = (df, false, "Order not found")) := by
  constructor
  · exact fun pre post e reason t hpre => mark_as_blocked_append pre post e reason t hpre
  · intro df rowId reason t hx
    rw [mark_as_blocked, overFirst_not_found _ df rowId hx]

/-- Witness for C10: blocking a concrete Completed row succeeds and overwrites
status and remark. -/
theorem mark_blocked_no_precondition_witness :
    mark_as_blocked [entC10] entC10.scheduleRowID "Manque Piece" 15 =
      ([{ entC10 with
          status := "Blocked"
          remark := blockedRemark "Manque Piece" 15
          remainingRoutingTime := max 0 (entC10.routingTime - 15) }],
       true, "Order marked as blocked: " ++ "Manque Piece") :=
  mark_blocked_no_precondition.1 [] [] entC10 "Manque Piece" 15 (by simp)

/-- Renumbering is invisible to the page sort order. -/
theorem sorted_resequence (l : List Entry) (h : List.Sorted pageRel l) :
    List.Sorted pageRel (resequence l) := by
  rw [resequence, List.Sorted, List.pairwise_map]
  have h1 : List.Pairwise pageRel (l.enum.map Prod.snd) := by
    rw [List.enum_map_snd]; exact h
  have h2 : List.Pairwise (fun p q : ℕ × Entry => pageRel p.2 q.2) l.enum :=
    List.pairwise_map.mp h1
  exact List.Pairwise.imp (fun hpq => hpq) h2

/-- Renumbering only rewrites the sequence numbers. -/
theorem map_stripSeq_resequence (l : List Entry) :
    (resequence l).map stripSeq = l.map stripSeq := by
  rw [resequence, List.map_map,
    show (stripSeq ∘ fun p : ℕ × Entry => { p.2 with sequenceNumber := p.1 + 1 }) =
      (stripSeq ∘ Prod.snd) from rfl,
    ← List.map_map, List.enum_map_snd]

/-- The renumbered list carries the sequence numbers 1..N in order. -/
theorem resequence_seq (l : List Entry) (i : ℕ) (h : i < (resequence l).length) :
    ((resequence l).get ⟨i, h⟩).sequenceNumber = i + 1 := by
  simp [resequence, List.get_eq_getElem, List.getElem_map, List.getElem_enum]

/-- Claim C7: the page priority-change handler succeeds exactly when the
addressed row exists and is Planned; on success the whole schedule is re-sorted
by (priority ordinal ascending, routing time descending) and every sequence
number is reassigned 1..N; in the concrete scenario with rows at priorities
C, A, B, changing the C row to Urgent places it first and renumbers 1..3. -/
theorem change_priority_resort_spec :
    (∀ (df : List Entry) (rowId np : String) (tech : Option (String × String)),
      ((render_priority_update df rowId np tech).isSome ↔
        ∃ e, df.find? (fun x => x.scheduleRowID = rowId) = some e ∧
          e.status = "Planned")) ∧
    (∀ (df : List Entry) (rowId np : String) (tech : Option (String × String))
        (out : List Entry),
      render_priority_update df rowId np tech = some out →
      (out.map stripSeq).Perm
        ((updateFirst df rowId fun r => apply_priority_fields r np tech).map
          stripSeq) ∧
      List.Sorted pageRel out ∧
      (∀ (i : ℕ) (h : i < out.length), (out.get ⟨i, h⟩).sequenceNumber = i + 1)) ∧
    (∃ out,
      render_priority_update [rowC, rowA, rowB] "rc" "Urgent" (some ("M9", "N9")) =
        some out ∧
      out.head?.map (·.scheduleRowID) = some "rc" ∧
      out.head?.map (·.priority) = some (some "Urgent") ∧
      out.map (·.sequenceNumber) = [1, 2, 3]) := by
  refine ⟨?_, ?_, ?_⟩
  · intro df rowId np tech
    rcases hfind : df.find? (fun x => x.scheduleRowID = rowId) with _ | e
    · simp [render_priority_update, hfind]
    · by_cases hst : e.status = "Planned"
      · simp [render_priority_update, hfind, hst]
      · simp [render_priority_update, hfind, hst]
  · intro df rowId np tech out hout
    rcases hfind : df.find? (fun x => x.scheduleRowID = rowId) with _ | e
    · simp [render_priority_update, hfind] at hout
    · by_cases hst : e.status = "Planned"
      · simp only [render_priority_update, hfind, hst, not_true_eq_false,
          if_false, Option.some.injEq] at hout
        subst hout
        refine ⟨?_, ?_, ?_⟩
        · rw [map_stripSeq_resequence]
          exact (List.perm_insertionSort pageRel _).map stripSeq
        · exact sorted_resequence _ (List.sorted_insertionSort pageRel _)
        · exact fun i h => resequence_seq _ i h
      · simp [render_priority_update, hfind, hst] at hout
  · refine ⟨_, rfl, ?_, ?_, ?_⟩ <;> decide

/-- Witness for C7: the success criterion holds at the concrete C, A, B schedule
and the re-sorted output is sorted by the page order. -/
theorem change_priority_resort_witness :
    (render_priority_update [rowC, rowA, rowB] "rc" "Urgent"
        (some ("M9", "N9"))).isSome ∧
    List.Sorted pageRel
      ((render_priority_update [rowC, rowA, rowB] "rc" "Urgent"
          (some ("M9", "N9"))).getD []) :=
  ⟨(change_priority_resort_spec.1 [rowC, rowA, rowB] "rc" "Urgent"
      (some ("M9", "N9"))).mpr ⟨rowC, by decide, by decide⟩,
   (change_priority_resort_spec.2.1 [rowC, rowA, rowB] "rc" "Urgent"
      (some ("M9", "N9"))
      ((render_priority_update [rowC, rowA, rowB] "rc" "Urgent"
          (some ("M9", "N9"))).getD []) (by decide)).2.1⟩

/-- Claim C1 evaluation at the failing input: on an empty orders table the engine
fails for every technician set (the summary block of create_initial_schedule
divides the scheduled count by the order count, raising ZeroDivisionError, which
the model renders as none). -/
theorem engine_empty_orders_failure :
    ∀ (techs : List Technician) (date : String),
      create_initial_schedule techs [] date = none := by
  intro techs date
  rfl

/-- Appending one schedule row adds its routing time to its technician only. -/
theorem sumRouting_append (sched : List SchedEntry) (e : SchedEntry) (m : String) :
    sumRouting (sched ++ [e]) m =
      sumRouting sched m + (if e.technicianMatricule = m then e.routingTime else 0) := by
  simp only [sumRouting, List.filter_append]
  by_cases h : e.technicianMatricule = m <;> simp [h]

/-- With pairwise distinct matricules, the dictionary built over the technician
table maps each technician to its own row. -/
theorem techLookup_self (techs : List Technician)
    (hnd : (techs.map (·.matricule)).Nodup) (t : Technician) (ht : t ∈ techs) :
    techLookup techs t.matricule = some t := by
  induction techs with
  | nil => cases ht
  | cons a l ih =>
    obtain ⟨hna, hnl⟩ := List.nodup_cons.mp hnd
    rcases List.mem_cons.mp ht with rfl | htl
    · simp [techLookup]
    · have hm : ¬ a.matricule = t.matricule := by
        intro hh
        apply hna
        show a.matricule ∈ List.map (fun x => x.matricule) l
        rw [hh]
        exact List.mem_map_of_mem (·.matricule) htl
      have := ih hnl htl
      rw [techLookup] at this ⊢
      rw [List.find?_cons_of_neg _ (by simp [hm]), this]

/-- One assignment preserves the capacity invariant whenever the chosen
technician has at least the routing time remaining. -/
theorem assignTo_inv (techs : List Technician) (s : AllocSt) (date : String)
    (o : OrderRow) (i : ℕ) (m entryRemark : String)
    (hm : o.routingTime ≤ s.remaining m) (hinv : AllocInv techs s) :
    AllocInv techs (assignTo s date techs o i m entryRemark) := by
  intro t ht
  obtain ⟨h1, h2⟩ := hinv t ht
  have hsum := sumRouting_append s.sched
    (mkSchedEntry date o m (nameOf techs m) entryRemark) t.matricule
  by_cases hq : t.matricule = m
  · subst hq
    constructor
    · show sumRouting (s.sched ++ [mkSchedEntry date o t.matricule
          (nameOf techs t.matricule) entryRemark]) t.matricule +
        (if t.matricule = t.matricule then
          s.remaining t.matricule - o.routingTime else s.remaining t.matricule) =
        t.workingTime
      rw [hsum, if_pos rfl,
        if_pos (show (mkSchedEntry date o t.matricule (nameOf techs t.matricule)
          entryRemark).technicianMatricule = t.matricule from rfl),
        show (mkSchedEntry date o t.matricule (nameOf techs t.matricule)
          entryRemark).routingTime = o.routingTime from rfl]
      linarith
    · show (0 : ℚ) ≤ (if t.matricule = t.matricule then
        s.remaining t.matricule - o.routingTime else s.remaining t.matricule)
      rw [if_pos rfl]
      linarith
  · constructor
    · show sumRouting (s.sched ++ [mkSchedEntry date o m (nameOf techs m)
          entryRemark]) t.matricule +
        (if t.matricule = m then s.remaining m - o.routingTime
         else s.remaining t.matricule) = t.workingTime
      rw [hsum,
        if_neg (show ¬ (mkSchedEntry date o m (nameOf techs m)
          entryRemark).technicianMatricule = t.matricule from fun hh => hq hh.symm),
        if_neg hq]
      linarith
    · show (0 : ℚ) ≤ (if t.matricule = m then s.remaining m - o.routingTime
        else s.remaining t.matricule)
      rw [if_neg hq]
      exact h2

/-- The initial allocation state satisfies the capacity invariant when every
technician has nonnegative working time and matricules are pairwise distinct. -/
theorem initSt_inv (techs : List Technician)
    (hnd : (techs.map (·.matricule)).Nodup)
    (h0 : ∀ t ∈ techs, 0 ≤ t.workingTime) : AllocInv techs (initSt techs) := by
  intro t ht
  constructor
  · show sumRouting [] t.matricule +
      ((techLookup techs t.matricule).map (·.workingTime)).getD 0 = t.workingTime
    rw [techLookup_self techs hnd t ht]
    simp [sumRouting]
  · show (0 : ℚ) ≤ ((techLookup techs t.matricule).map (·.workingTime)).getD 0
    rw [techLookup_self techs hnd t ht]
    simpa using h0 t ht

/-- Phase 1 preserves the capacity invariant. -/
theorem phase1_inv (techs : List Technician) (date : String) :
    ∀ (l : List (ℕ × OrderRow)) (s : AllocSt),
      AllocInv techs s → AllocInv techs (phase1 techs date l s) := by
  intro l
  induction l with
  | nil => intro s h; simpa [phase1] using h
  | cons p rest ih =>
    intro s h
    obtain ⟨i, o⟩ := p
    by_cases hb : s.p1techs.length ≥ techs.length
    · simpa [phase1, hb] using h
    · rcases hfind : (techs.map (·.matricule)).find? (fun m =>
          decide (m ∉ s.p1techs) && decide (o.classCode ≤ expertiseOf techs m) &&
          decide (o.routingTime ≤ s.remaining m)) with _ | m
      · simp only [phase1, hb, if_false, hfind]
        exact ih s h
      · have hp := List.find?_some hfind
        simp only [Bool.and_eq_true, decide_eq_true_eq] at hp
        simp only [phase1, hb, if_false, hfind]
        exact ih _ (assignTo_inv techs s date o i m "" hp.2 h)

/-- Phase 2 preserves the capacity invariant. -/
theorem phase2_inv (techs : List Technician) (date : String) :
    ∀ (l : List (ℕ × OrderRow)) (s : AllocSt),
      AllocInv techs s → AllocInv techs (phase2 techs date l s) := by
  intro l
  induction l with
  | nil => intro s h; simpa [phase2] using h
  | cons p rest ih =>
    intro s h
    obtain ⟨i, o⟩ := p
    rcases hhead : (List.insertionSort (fun m1 m2 =>
        lex3Le (phase2key s techs o m1) (phase2key s techs o m2))
        ((techs.map (·.matricule)).filter fun m =>
          decide (o.classCode ≤ expertiseOf techs m) &&
          decide (o.routingTime ≤ s.remaining m))).head? with _ | m
    · simp only [phase2, hhead]
      exact ih s h
    · have hmem : m ∈ (techs.map (·.matricule)).filter fun m =>
          decide (o.classCode ≤ expertiseOf techs m) &&
          decide (o.routingTime ≤ s.remaining m) :=
        ((List.perm_insertionSort _ _).mem_iff).mp (List.mem_of_mem_head? hhead)
      obtain ⟨_, hcond⟩ := List.mem_filter.mp hmem
      simp only [Bool.and_eq_true, decide_eq_true_eq] at hcond
      simp only [phase2, hhead]
      exact ih _ (assignTo_inv techs s date o i m "" hcond.2 h)

/-- Phase 3 preserves the capacity invariant. -/
theorem phase3_inv (techs : List Technician) (date : String) :
    ∀ (l : List (ℕ × OrderRow)) (s : AllocSt),
      AllocInv techs s → AllocInv techs (phase3 techs date l s) := by
  intro l
  induction l with
  | nil => intro s h; simpa [phase3] using h
  | cons p rest ih =>
    intro s h
    obtain ⟨i, o⟩ := p
    rcases hhead : (List.insertionSort (fun m1 m2 =>
        lex2Le (phase3key s m1) (phase3key s m2))
        ((techs.map (·.matricule)).filter fun m =>
          decide (o.routingTime ≤ s.remaining m))).head? with _ | m
    · simp only [phase3, hhead]
      exact ih s h
    · have hmem : m ∈ (techs.map (·.matricule)).filter fun m =>
          decide (o.routingTime ≤ s.remaining m) :=
        ((List.perm_insertionSort _ _).mem_iff).mp (List.mem_of_mem_head? hhead)
      obtain ⟨_, hcond⟩ := List.mem_filter.mp hmem
      simp only [decide_eq_true_eq] at hcond
      simp only [phase3, hhead]
      exact ih _ (assignTo_inv techs s date o i m
        "Capacity fill - may not match expertise" hcond h)

/-- Claim C2: over a whole allocation run the assigned routing minutes of every
technician plus the final remaining counter equal the initial working time, the
remaining counter never goes negative (so it decreased monotonically from its
initial value by exactly the assigned minutes), and consequently the sum of
routing times assigned to a technician never exceeds the available minutes, both
for the final state and for the returned schedule. -/
theorem allocation_capacity_spec :
    ∀ (techs : List Technician) (orders : List OrderRow) (date : String),
      (techs.map (·.matricule)).Nodup →
      (∀ t ∈ techs, 0 ≤ t.workingTime) →
      ∀ t ∈ techs,
        sumRouting (allocFinal techs orders date).sched t.matricule +
            (allocFinal techs orders date).remaining t.matricule = t.workingTime ∧
        0 ≤ (allocFinal techs orders date).remaining t.matricule ∧
        sumRouting (allocFinal techs orders date).sched t.matricule ≤ t.workingTime ∧
        (∀ out, create_initial_schedule techs orders date = some out →
          sumRouting out.1 t.matricule ≤ t.workingTime) := by
  intro techs orders date hnd h0 t ht
  have hinv : AllocInv techs (allocFinal techs orders date) := by
    simp only [allocFinal]
    exact phase3_inv techs date _ _
      (phase2_inv techs date _ _
        (phase1_inv techs date _ _ (initSt_inv techs hnd h0)))
  obtain ⟨h1, h2⟩ := hinv t ht
  refine ⟨h1, h2, by linarith, ?_⟩
  intro out hout
  by_cases he : orders.isEmpty
  · simp [create_initial_schedule, he] at hout
  · simp only [create_initial_schedule] at hout
    rw [if_neg he] at hout
    have hpair := Option.some.inj hout
    have hfst : out.1 = (allocFinal techs orders date).sched := by rw [← hpair]
    rw [hfst]
    linarith

/-- Witness for C2: the capacity bound instantiated on the concrete one
technician, three order scenario. -/
theorem allocation_capacity_witness :
    sumRouting (allocFinal [techM1] [ordB, ordA, ordC] "2026-01-01").sched
        techM1.matricule +
      (allocFinal [techM1] [ordB, ordA, ordC] "2026-01-01").remaining
        techM1.matricule = techM1.workingTime ∧
    0 ≤ (allocFinal [techM1] [ordB, ordA, ordC] "2026-01-01").remaining
        techM1.matricule ∧
    sumRouting (allocFinal [techM1] [ordB, ordA, ordC] "2026-01-01").sched
        techM1.matricule ≤ techM1.workingTime ∧
    (∀ out, create_initial_schedule [techM1] [ordB, ordA, ordC] "2026-01-01" =
        some out →
      sumRouting out.1 techM1.matricule ≤ techM1.workingTime) :=
  allocation_capacity_spec [techM1] [ordB, ordA, ordC] "2026-01-01"
    (by decide) (by decide) techM1 (by decide)
